import Mathlib

/-!
Verification of the `imagen.py` OpenAI image CLI client.

This file gives a shallow embedding of the program's pure request/response
logic.  Side effects (console prints, file writes, file-handle open/close,
HTTP posts) are modelled as an explicit event trace (`Event`), machine
integers as `Nat`/`Int`, and fallible operations as `Option`/`Except`.
Python-level behaviours that the code relies on (`in` on dicts/strings/lists,
truthiness, `dict.get`, base64 decoding, `strftime`) are embedded as
executable Lean functions.
-/

set_option autoImplicit false

namespace Imagen

/-! ## Decimal rendering of naturals (models Python `str` on ints / f-strings) -/

/-- Decimal digit characters of `n`, most significant first, by structural
recursion on a fuel bound (any fuel greater than `n` yields the digits). -/
def natDigitsAux : Nat → Nat → List Char
  | 0, _ => []
  | fuel + 1, n =>
    if n < 10 then [Char.ofNat (48 + n)]
    else natDigitsAux fuel (n / 10) ++ [Char.ofNat (48 + n % 10)]

/-- Decimal digit characters of a natural number, most significant first. -/
def natDigits (n : Nat) : List Char := natDigitsAux (n + 1) n

/-- Decimal string of a natural number, as Python renders it in an f-string. -/
def pyNatStr (n : Nat) : String := ⟨natDigits n⟩

/-- Decimal string of an integer, as Python renders it. -/
def pyIntStr (n : Int) : String :=
  if n < 0 then "-" ++ pyNatStr n.natAbs else pyNatStr n.natAbs

/-! ## Timestamps (models `datetime.now().strftime("%Y%m%d_%H%M%S")`) -/

/-- Wall-clock instant, the fields `datetime.now()` exposes for this format. -/
structure PyDateTime where
  year : Nat
  month : Nat
  day : Nat
  hour : Nat
  minute : Nat
  second : Nat
  deriving DecidableEq

/-- Field bounds guaranteed by Python's `datetime` type. -/
def PyDateTime.Valid (d : PyDateTime) : Prop :=
  1 ≤ d.year ∧ d.year ≤ 9999 ∧ 1 ≤ d.month ∧ d.month ≤ 12 ∧
  1 ≤ d.day ∧ d.day ≤ 31 ∧ d.hour ≤ 23 ∧ d.minute ≤ 59 ∧ d.second ≤ 59

instance (d : PyDateTime) : Decidable d.Valid := by
  unfold PyDateTime.Valid; infer_instance

/-- Left-pad the decimal digits of `n` with zeros to width `k`
(models the zero padding of `%m`, `%d`, `%H`, `%M`, `%S`, `%Y`). -/
def padL (k n : Nat) : List Char :=
  List.replicate (k - (natDigits n).length) '0' ++ natDigits n

/-- The `strftime("%Y%m%d_%H%M%S")` format used to build filenames. -/
def strftimeYmdHms (d : PyDateTime) : String :=
  ⟨padL 4 d.year ++ padL 2 d.month ++ padL 2 d.day ++ '_' ::
    (padL 2 d.hour ++ padL 2 d.minute ++ padL 2 d.second)⟩

/-- A string has `YYYYMMDD_HHMMSS` shape: eight digits, an underscore,
six digits. -/
def TimestampForm (s : String) : Prop :=
  ∃ a b : List Char, s.data = a ++ '_' :: b ∧ a.length = 8 ∧ b.length = 6 ∧
    (∀ c ∈ a, c.isDigit) ∧ (∀ c ∈ b, c.isDigit)

/-! ## Base64 (models `base64.b64decode` on the standard alphabet) -/

/-- The standard base64 alphabet. -/
def b64alphabet : List Char :=
  "ABCDEFGHIJKLMNOPQRSTUVWXYZabcdefghijklmnopqrstuvwxyz0123456789+/".data

/-- Character for a 6-bit group. -/
def b64char (n : Nat) : Char := b64alphabet.getD n 'A'

/-- Value of a base64 alphabet character, `none` for other characters. -/
def b64charVal (c : Char) : Option Nat := b64alphabet.indexOf? c

/-- Standard base64 encoding of a byte list (used to express what a
"valid base64 encoding of a byte sequence" is). -/
def b64encode : List Nat → List Char
  | [] => []
  | [b1] => [b64char (b1 / 4), b64char (b1 % 4 * 16), '=', '=']
  | [b1, b2] => [b64char (b1 / 4), b64char (b1 % 4 * 16 + b2 / 16),
      b64char (b2 % 16 * 4), '=']
  | b1 :: b2 :: b3 :: rest =>
    b64char (b1 / 4) :: b64char (b1 % 4 * 16 + b2 / 16) ::
      b64char (b2 % 16 * 4 + b3 / 64) :: b64char (b3 % 64) :: b64encode rest

/-- Decode a base64 character stream quad by quad, with `=` padding only in
the final quad. -/
def b64decodeCore : List Char → Option (List Nat)
  | [] => some []
  | c1 :: c2 :: c3 :: c4 :: rest =>
    match b64charVal c1, b64charVal c2 with
    | some v1, some v2 =>
      if c3 = '=' then
        if c4 = '=' ∧ rest = [] then some [v1 * 4 + v2 / 16] else none
      else
        match b64charVal c3 with
        | some v3 =>
          if c4 = '=' then
            if rest = [] then some [v1 * 4 + v2 / 16, v2 % 16 * 16 + v3 / 4]
            else none
          else
            match b64charVal c4 with
            | some v4 =>
              (b64decodeCore rest).map
                (fun tl => (v1 * 4 + v2 / 16) :: (v2 % 16 * 16 + v3 / 4) ::
                  (v3 % 4 * 64 + v4) :: tl)
            | none => none
        | none => none
    | _, _ => none
  | _ => none

/-- Models `base64.b64decode(s)` with default `validate=False`: characters
outside the alphabet (other than the pad `=`) are discarded, then the
stream is decoded; a leftover partial quad is a `binascii.Error`,
modelled as `none`. -/
def b64decode (s : String) : Option (List Nat) :=
  b64decodeCore (s.data.filter fun c => (b64charVal c).isSome || c == '=')

/-! ## JSON values (the result of `response.json()`) -/

/-- A parsed JSON value, as produced by Python's `json` module:
`None`, `bool`, numbers, `str`, `list`, `dict`. -/
inductive JsonVal where
  | null
  | bool (b : Bool)
  | num (n : Int)
  | str (s : String)
  | arr (items : List JsonVal)
  | obj (fields : List (String × JsonVal))

mutual

/-- Structural equality on JSON values (models Python `==` between
values of the same JSON type). -/
def jsonBeq : JsonVal → JsonVal → Bool
  | .null, .null => true
  | .bool a, .bool b => a == b
  | .num a, .num b => a == b
  | .str a, .str b => a == b
  | .arr a, .arr b => jsonBeqItems a b
  | .obj a, .obj b => jsonBeqFields a b
  | _, _ => false

/-- Elementwise equality of JSON lists. -/
def jsonBeqItems : List JsonVal → List JsonVal → Bool
  | [], [] => true
  | x :: xs, y :: ys => jsonBeq x y && jsonBeqItems xs ys
  | _, _ => false

/-- Entrywise equality of JSON objects. -/
def jsonBeqFields : List (String × JsonVal) → List (String × JsonVal) → Bool
  | [], [] => true
  | (k, v) :: xs, (k2, v2) :: ys => k == k2 && jsonBeq v v2 && jsonBeqFields xs ys
  | _, _ => false

end

instance : BEq JsonVal := ⟨jsonBeq⟩

mutual

/-- Python `repr` of a parsed JSON value (used when a dict or list is
interpolated into an f-string). -/
def pyRepr : JsonVal → String
  | .null => "None"
  | .bool true => "True"
  | .bool false => "False"
  | .num n => pyIntStr n
  | .str s => "\x27" ++ s ++ "\x27"
  | .arr xs => "[" ++ pyReprItems xs ++ "]"
  | .obj fs => "\x7b" ++ pyReprFields fs ++ "\x7d"

/-- Comma-separated `repr`s of list elements. -/
def pyReprItems : List JsonVal → String
  | [] => ""
  | [x] => pyRepr x
  | x :: rest => pyRepr x ++ ", " ++ pyReprItems rest

/-- Comma-separated `repr`s of dict entries. -/
def pyReprFields : List (String × JsonVal) → String
  | [] => ""
  | [(k, v)] => "\x27" ++ k ++ "\x27: " ++ pyRepr v
  | (k, v) :: rest =>
    "\x27" ++ k ++ "\x27: " ++ pyRepr v ++ ", " ++ pyReprFields rest

end

/-- Python `str` of a parsed JSON value, as an f-string renders it:
like `repr` except that a top-level string is unquoted. -/
def pyStr : JsonVal → String
  | .str s => s
  | v => pyRepr v

mutual

/-- Models `json.dumps(v, ensure_ascii=False, indent=2)`; the
whitespace/indentation layout is not modelled, only the rendered content. -/
def jsonDumps : JsonVal → String
  | .null => "null"
  | .bool true => "true"
  | .bool false => "false"
  | .num n => pyIntStr n
  | .str s => "\"" ++ s ++ "\""
  | .arr xs => "[" ++ jsonDumpsItems xs ++ "]"
  | .obj fs => "\x7b" ++ jsonDumpsFields fs ++ "\x7d"

/-- Comma-separated serializations of list elements. -/
def jsonDumpsItems : List JsonVal → String
  | [] => ""
  | [x] => jsonDumps x
  | x :: rest => jsonDumps x ++ ", " ++ jsonDumpsItems rest

/-- Comma-separated serializations of object entries. -/
def jsonDumpsFields : List (String × JsonVal) → String
  | [] => ""
  | [(k, v)] => "\"" ++ k ++ "\": " ++ jsonDumps v
  | (k, v) :: rest =>
    "\"" ++ k ++ "\": " ++ jsonDumps v ++ ", " ++ jsonDumpsFields rest

end

/-! ## Python primitives used by the response handler -/

/-- Python truthiness of a parsed JSON value (`not data["data"]`). -/
def pyFalsy : JsonVal → Bool
  | .null => true
  | .bool b => !b
  | .num n => n == 0
  | .str s => s == ""
  | .arr xs => xs.isEmpty
  | .obj fs => fs.isEmpty

/-- Whether `needle` occurs as a contiguous substring of `hay`
(Python `in` on strings). -/
def containsSub (needle : List Char) : List Char → Bool
  | [] => needle.isEmpty
  | c :: rest => needle.isPrefixOf (c :: rest) || containsSub needle rest

/-- Python `key in value`: key membership for a dict, substring test for a
string, element equality for a list, and a `TypeError` otherwise. -/
def pyContains (needle : String) : JsonVal → Except String Bool
  | .obj fs => .ok (fs.any fun kv => kv.1 == needle)
  | .str s => .ok (containsSub needle.data s.data)
  | .arr xs => .ok (xs.any fun x => jsonBeq x (.str needle))
  | _ => .error "TypeError: argument is not iterable"

/-- Python `value[key]` with a string key: dict lookup (a `KeyError` when
the key is missing), and a `TypeError` on any non-dict value. -/
def pySubscript (key : String) : JsonVal → Except String JsonVal
  | .obj fs =>
    match fs.lookup key with
    | some v => .ok v
    | none => .error ("KeyError: " ++ key)
  | _ => .error "TypeError: value is not subscriptable with a string"

/-- Python `value.get(key)` on a dict (`None` when absent); `AttributeError`
on a non-dict value. -/
def pyGet (key : String) : JsonVal → Except String JsonVal
  | .obj fs => .ok ((fs.lookup key).getD .null)
  | _ => .error "AttributeError: value has no attribute get"

/-- Whether a value is a JSON array (`isinstance(x, list)`). -/
def isListVal : JsonVal → Bool
  | .arr _ => true
  | _ => false

/-- Whether a value is a JSON object (a Python dict). -/
def isObjVal : JsonVal → Bool
  | .obj _ => true
  | _ => false

/-- Whether a response item is a dict carrying the `"b64_json"` payload key. -/
def hasB64Field : JsonVal → Bool
  | .obj fs => fs.any fun kv => kv.1 == "b64_json"
  | _ => false

/-- The `"b64_json"` payload of a response item (`null` when absent). -/
def getB64 : JsonVal → JsonVal
  | .obj fs => (fs.lookup "b64_json").getD .null
  | _ => .null

/-! ## Effects and environments -/

/-- An observable side effect of the program, in order of occurrence:
a console print, an invocation of the image persister
(`save_image_from_b64`), a file write, opening/closing a file handle for
the multipart upload, or issuing an HTTP POST. -/
inductive Event where
  | print (msg : String)
  | persistCall (payload : JsonVal) (outputPrefix : String) (index : Nat) (fmt : String)
  | write (filename : String) (contents : List Nat)
  | openFile (path : String)
  | closeFile (path : String)
  | httpPost (url : String)

/-- External state `save_image_from_b64` depends on: the wall clock and
whether opening/writing a given filename succeeds. -/
structure SaveEnv where
  now : PyDateTime
  writeOk : String → Bool

/-- An HTTP response as the handler observes it: the status code, the result
of `response.json()` (`none` models a `json.JSONDecodeError`), and the raw
body text. -/
structure HttpResponse where
  status_code : Nat
  jsonBody : Option JsonVal
  text : String

/-- `https://api.openai.com/v1/images`. -/
def BASE_URL : String := "https://api.openai.com/v1/images"

/-- `gpt-image-1`. -/
def GPT_IMAGE_MODEL : String := "gpt-image-1"

/-! ## `save_image_from_b64` (`imagen.py` lines 18-30) -/

/-- Models `base64.b64decode(x)` applied to a JSON value: only a string can
be decoded; any other type is a `TypeError`, which like a `binascii.Error`
is caught by the `except` in `save_image_from_b64`. -/
def pyB64Decode : JsonVal → Option (List Nat)
  | .str s => b64decode s
  | _ => none

/-- Decodes the base64 payload and writes the image file
`{prefix}_{timestamp}_{index+1}.{format}`, returning the produced events
and the filename (`None` on any caught failure).  The payload is the raw
JSON value the caller extracted from the response item; a non-string or
undecodable payload raises inside the `try` and is reported. -/
def save_image_from_b64 (env : SaveEnv) (b64_payload : JsonVal)
    ( output_prefix : String) (index : Nat) (output_format : String) :
    List Event × Option String :=
  match pyB64Decode b64_payload with
  | none => ([Event.print "Error saving image: could not decode base64 payload"], none)
  | some image_data =>
    let timestamp := strftimeYmdHms env.now
    let filename :=
      output_prefix ++ "_" ++ timestamp ++ "_" ++ pyNatStr (index + 1) ++ "." ++ output_format
    if env.writeOk filename then
      ([Event.write filename image_data, Event.print ("Saved image: " ++ filename)],
        some filename)
    else
      ([Event.print ("Error saving image: could not write file " ++ filename)], none)

/-! ## `handle_api_response` (`imagen.py` lines 32-74) -/

/-- The warning printed for a response item without a `"b64_json"` key
(line 44). -/
def itemWarning (i : Nat) (item : JsonVal) : String :=
  "Warning: Item " ++ pyNatStr i ++ " does not contain \"b64_json\". Item: " ++ pyStr item

/-- The `for i, item in enumerate(data["data"])` loop (lines 40-44), with
`i` starting at `start`.  Returns the events and, when a Python exception
(e.g. a `TypeError` from `in` on a non-iterable item) escapes the loop,
its message; an exception aborts the remaining items. -/
def processItems (env : SaveEnv) ( output_prefix fmt : String) :
    Nat → List JsonVal → List Event × Option String
  | _, [] => ([], none)
  | i, item :: rest =>
    match pyContains "b64_json" item with
    | .error e => ([], some e)
    | .ok true =>
      match pySubscript "b64_json" item with
      | .error e => ([], some e)
      | .ok v =>
        let s := save_image_from_b64 env v output_prefix i fmt
        let r := processItems env output_prefix fmt (i + 1) rest
        (Event.persistCall v output_prefix i fmt :: s.1 ++ r.1, r.2)
    | .ok false =>
      let r := processItems env output_prefix fmt (i + 1) rest
      (Event.print (itemWarning i item) :: r.1, r.2)

/-- The usage-information block (lines 49-55), given the non-null value of
`data["usage"]`.  The header prints before any attribute access, so a
non-dict usage value produces the header and then an `AttributeError`. -/
def usageBlock (u : JsonVal) : List Event × Option String :=
  match u with
  | .obj fs =>
    let total := (fs.lookup "total_tokens").getD .null
    let input := (fs.lookup "input_tokens").getD .null
    let output := (fs.lookup "output_tokens").getD .null
    let base :=
      [Event.print "\nUsage Information:",
       Event.print ("  Total Tokens: " ++ pyStr total),
       Event.print ("  Input Tokens: " ++ pyStr input),
       Event.print ("  Output Tokens: " ++ pyStr output)]
    if fs.any (fun kv => kv.1 == "input_tokens_details") then
      match (fs.lookup "input_tokens_details").getD .null with
      | .obj dfs =>
        (base ++
          [Event.print ("  Input Text Tokens: " ++ pyStr ((dfs.lookup "text_tokens").getD .null)),
           Event.print ("  Input Image Tokens: " ++ pyStr ((dfs.lookup "image_tokens").getD .null))],
          none)
      | _ => (base, some "AttributeError: value has no attribute get")
    else (base, none)
  | _ =>
    ([Event.print "\nUsage Information:"],
      some "AttributeError: value has no attribute get")

/-- The message of line 57, printed when `"data"` is present but falsy. -/
def noImagesMsg : String :=
  "No images were generated. This might be due to a safety filter or other issue."

/-- The warning of line 59. -/
def noUsageUnexpectedMsg : String :=
  "Warning: No usage information provided in the response, and data structure is unexpected."

/-- The two `elif` branches of lines 56-59, each re-evaluating
`"data" in data` and `data["data"]` exactly as the source does. -/
def elifChain (data : JsonVal) : List Event × Option String :=
  match pyContains "data" data with
  | .error e => ([], some e)
  | .ok true =>
    match pySubscript "data" data with
    | .error e => ([], some e)
    | .ok dv =>
      if pyFalsy dv then ([Event.print noImagesMsg], none)
      else if isListVal dv then ([], none)
      else ([Event.print noUsageUnexpectedMsg], none)
  | .ok false => ([Event.print noUsageUnexpectedMsg], none)

/-- Lines 48-59: the usage block when `"usage"` is present and non-null,
otherwise the `elif` chain. -/
def afterData (data : JsonVal) : List Event × Option String :=
  match pyContains "usage" data with
  | .error e => ([], some e)
  | .ok true =>
    match pySubscript "usage" data with
    | .error e => ([], some e)
    | .ok u =>
      match u with
      | .null => elifChain data
      | _ => usageBlock u
  | .ok false => elifChain data

/-- The malformed-shape warning of line 46. -/
def unexpectedStructureMsg (data : JsonVal) : String :=
  "Unexpected response structure: \"data\" field missing or not a list. Full response: " ++ pyStr data

/-- The body of the `try` block at lines 36-59, given the parsed JSON
`data`: the item loop (or the malformed-shape warning), then the
usage/empty-data reporting; the second component is the message of an
exception escaping the block, if any. -/
def handleParsed (env : SaveEnv) (data : JsonVal) ( output_prefix fmt : String) :
    List Event × Option String :=
  match pyContains "data" data with
  | .error e => ([], some e)
  | .ok true =>
    match pySubscript "data" data with
    | .error e => ([], some e)
    | .ok dv =>
      match dv with
      | .arr items =>
        let r := processItems env output_prefix fmt 0 items
        (match r.2 with
         | some e => (r.1, some e)
         | none =>
           let a := afterData data
           (r.1 ++ a.1, a.2))
      | _ =>
        let a := afterData data
        (Event.print (unexpectedStructureMsg data) :: a.1, a.2)
  | .ok false =>
    let a := afterData data
    (Event.print (unexpectedStructureMsg data) :: a.1, a.2)

/-- Processes an API response (lines 32-74): on status 200 the parsed body
is interpreted (JSON decode failure and any other exception are caught and
reported); on any other status an error report is printed from the
structured body when it parses and from the raw text otherwise. -/
def handle_api_response (env : SaveEnv) (response : HttpResponse)
    ( output_prefix : String) (expected_output_format_for_saving : String) :
    List Event :=
  if response.status_code = 200 then
    match response.jsonBody with
    | none =>
      [Event.print "Error: Could not decode JSON response.",
       Event.print ("Raw response: " ++ response.text)]
    | some data =>
      let r := handleParsed env data output_prefix expected_output_format_for_saving
      match r.2 with
      | none => r.1
      | some e =>
        r.1 ++
          [Event.print ("An error occurred while processing the response: " ++ e),
           Event.print ("Raw response JSON: " ++ pyStr data)]
  else
    Event.print ("Error: API request failed with status code " ++ pyNatStr response.status_code) ::
      (match response.jsonBody with
       | some j => [Event.print ("Error details: " ++ jsonDumps j)]
       | none => [Event.print ("Could not parse error response: " ++ response.text)])

/-! ## `create_image` (`imagen.py` lines 77-108): the request payload -/

/-- The argparse-validated parameters of the `create` subcommand.
Optional flags that argparse leaves at `None` are `Option`s. -/
structure CreateArgs where
  prompt : String
  n : Nat
  quality : String
  size : String
  background : String
  output_format : String
  output_compression : Option Nat
  moderation : String
  user : Option String
  output_prefix : String

/-- Python truthiness of an optional string (`if args.user:`): present and
non-empty. -/
def pyTruthyOptStr : Option String → Bool
  | none => false
  | some s => s != ""

/-- The JSON payload dict built at lines 85-100, with keys in insertion
order: the seven unconditional fields, then `user` when truthy, then
`output_compression` when supplied and the format is jpeg/webp, then
`moderation` when truthy. -/
def create_image_payload (args : CreateArgs) : List (String × JsonVal) :=
  [("prompt", JsonVal.str args.prompt),
   ("model", JsonVal.str GPT_IMAGE_MODEL),
   ("n", JsonVal.num args.n),
   ("quality", JsonVal.str args.quality),
   ("size", JsonVal.str args.size),
   ("background", JsonVal.str args.background),
   ("output_format", JsonVal.str args.output_format)] ++
  (if pyTruthyOptStr args.user then [("user", JsonVal.str (args.user.getD ""))] else []) ++
  (if args.output_compression.isSome ∧
      (args.output_format = "jpeg" ∨ args.output_format = "webp") then
     [("output_compression", JsonVal.num (args.output_compression.getD 0))]
   else []) ++
  (if args.moderation != "" then [("moderation", JsonVal.str args.moderation)] else [])

/-- Whether a payload dict carries a given key. -/
def payloadHasKey (key : String) (payload : List (String × JsonVal)) : Bool :=
  payload.any fun kv => kv.1 == key

/-! ## `edit_image` (`imagen.py` lines 110-174) -/

/-- The argparse-validated parameters of the `edit` subcommand. -/
structure EditArgs where
  image_paths : List String
  prompt : String
  mask_path : Option String
  n : Nat
  quality : String
  size : String
  user : Option String
  output_prefix : String

/-- External state the edit operation depends on: which paths exist, which
existing files can be opened, and the transport outcome (`none` models a
raised `requests.exceptions.RequestException`, carrying `transportErr`). -/
structure EditEnv where
  pathExists : String → Bool
  openOk : String → Bool
  transport : Option HttpResponse
  transportErr : String
  saveEnv : SaveEnv

/-- The informational prints at lines 112-117: the editing banner, the
more-than-16-images warning, and the mask-with-multiple-images note. -/
def editHeader (args : EditArgs) : List Event :=
  [Event.print ("Editing image(s) " ++
      String.intercalate ", " (args.image_paths.map fun p => "\"" ++ p ++ "\"") ++
      " with prompt: \"" ++ args.prompt ++ "\" using model " ++ GPT_IMAGE_MODEL)] ++
  (if args.image_paths.length > 16 then
     [Event.print ("Warning: You provided " ++ pyNatStr args.image_paths.length ++
       " images. gpt-image-1 supports up to 16 images for edits. Proceeding, but the API might reject this.")]
   else []) ++
  (if pyTruthyOptStr args.mask_path ∧ args.image_paths.length > 1 then
     [Event.print ("Note: A mask was provided with multiple images. The mask will be applied to the first image: \"" ++
       args.image_paths.headD "" ++ "\".")]
   else [])

/-- The source-image loop at lines 129-134: for each path, raise
`FileNotFoundError` if it does not exist, otherwise open it.  Returns the
open events, the paths opened so far, and the error message of a raised
exception (already prefixed as the matching `except` branch prints it). -/
def openLoop (env : EditEnv) : List String → List Event × List String × Option String
  | [] => ([], [], none)
  | p :: rest =>
    if env.pathExists p = false then
      ([], [], some ("Error: Image file not found: " ++ p))
    else if env.openOk p = false then
      ([], [], some ("Error opening file(s): could not open " ++ p))
    else
      let r := openLoop env rest
      (Event.openFile p :: r.1, p :: r.2.1, r.2.2)

/-- The mask handling at lines 136-141: only a truthy `mask_path` is
checked and opened. -/
def maskStep (env : EditEnv) (args : EditArgs) : List Event × List String × Option String :=
  match args.mask_path with
  | none => ([], [], none)
  | some mp =>
    if mp = "" then ([], [], none)
    else if env.pathExists mp = false then
      ([], [], some ("Error: Mask file not found: " ++ mp))
    else if env.openOk mp = false then
      ([], [], some ("Error opening file(s): could not open " ++ mp))
    else ([Event.openFile mp], [mp], none)

/-- The paths the edit invocation references on the local filesystem: every
source image, plus the mask when one is (truthily) supplied. -/
def referencedPaths (args : EditArgs) : List String :=
  args.image_paths ++
    (match args.mask_path with
     | some mp => if mp = "" then [] else [mp]
     | none => [])

/-- The edit operation (lines 110-174): header prints; open the source
images and mask, closing every already-opened handle and returning on a
failure; otherwise POST to `{BASE_URL}/edits`, process the response (or
report a transport failure), and close every handle in the `finally`. -/
def edit_image (env : EditEnv) (args : EditArgs) : List Event :=
  let hdr := editHeader args
  let o := openLoop env args.image_paths
  match o.2.2 with
  | some msg => hdr ++ o.1 ++ [Event.print msg] ++ (o.2.1).map Event.closeFile
  | none =>
    let m := maskStep env args
    let opened := o.2.1 ++ m.2.1
    match m.2.2 with
    | some msg => hdr ++ o.1 ++ m.1 ++ [Event.print msg] ++ opened.map Event.closeFile
    | none =>
      hdr ++ o.1 ++ m.1 ++ [Event.httpPost (BASE_URL ++ "/edits")] ++
        (match env.transport with
         | some resp => handle_api_response env.saveEnv resp args.output_prefix "png"
         | none => [Event.print ("Request failed: " ++ env.transportErr)]) ++
        opened.map Event.closeFile

/-! ## Event-trace observations -/

/-- The positional indices of the persister invocations in a trace, in
order. -/
def persistIdxs (evs : List Event) : List Nat :=
  evs.filterMap fun e =>
    match e with
    | .persistCall _ _ i _ => some i
    | _ => none

/-- The filenames of the file writes in a trace, in order. -/
def writeNames (evs : List Event) : List String :=
  evs.filterMap fun e =>
    match e with
    | .write fn _ => some fn
    | _ => none

/-- The paths of the opened file handles in a trace, in order. -/
def openedPaths (evs : List Event) : List String :=
  evs.filterMap fun e =>
    match e with
    | .openFile p => some p
    | _ => none

/-- The paths of the closed file handles in a trace, in order. -/
def closedPaths (evs : List Event) : List String :=
  evs.filterMap fun e =>
    match e with
    | .closeFile p => some p
    | _ => none

/-- How many HTTP POSTs a trace issues. -/
def postCount (evs : List Event) : Nat :=
  (evs.filter fun e =>
    match e with
    | .httpPost _ => true
    | _ => false).length

/-- How many times a trace prints exactly `msg`. -/
def printCount (msg : String) (evs : List Event) : Nat :=
  (evs.filter fun e =>
    match e with
    | .print m => m == msg
    | _ => false).length

/-- Whether a trace writes contents `bs` to filename `fn`. -/
def hasWrite (fn : String) (bs : List Nat) (evs : List Event) : Bool :=
  evs.any fun e =>
    match e with
    | .write fn2 bs2 => fn2 == fn && bs2 == bs
    | _ => false

/-- Whether a string begins with the given prefix text. -/
def startsWith (pre s : String) : Bool :=
  pre.data.isPrefixOf s.data

/-- Whether an event is a console print (as opposed to a write, an
open/close, a POST, or a persister invocation). -/
def isPrintEv : Event → Bool
  | .print _ => true
  | _ => false

/-- Whether an event is a print whose message starts with `pre`. -/
def isPrintWithPrefix (pre : String) : Event → Bool
  | .print m => startsWith pre m
  | _ => false

/-! ## Concrete fixtures used to exercise the model -/

/-- A save environment with a fixed clock and all file writes succeeding. -/
def testEnv : SaveEnv := ⟨⟨2025, 10, 12, 13, 14, 15⟩, fun _ => true⟩

/-- A 200 response with an empty `"data"` list and a non-null `"usage"`. -/
def respEmptyWithUsage : HttpResponse :=
  ⟨200, some (.obj [("data", .arr []), ("usage", .obj [("total_tokens", .num 5)])]), ""⟩

/-- A 200 response whose `"data"` list is empty and with no `"usage"` key. -/
def respEmptyNoUsage : HttpResponse := ⟨200, some (.obj [("data", .arr [])]), ""⟩

/-- A 200 response carrying two decodable images. -/
def respTwoImages : HttpResponse :=
  ⟨200, some (.obj [("data", .arr [.obj [("b64_json", .str "QUJD")],
    .obj [("b64_json", .str "SGk=")]])]), ""⟩

/-- A 200 response whose first payload is malformed base64 and whose second
is fine. -/
def respBadThenGood : HttpResponse :=
  ⟨200, some (.obj [("data", .arr [.obj [("b64_json", .str "QQ")],
    .obj [("b64_json", .str "SGk=")]])]), ""⟩

/-- A 200 response mixing an item without a payload and one with a payload. -/
def respMixed : HttpResponse :=
  ⟨200, some (.obj [("data", .arr [.obj [("note", .str "filtered")],
    .obj [("b64_json", .str "SGk=")]])]), ""⟩

/-- A 400 response with a structured error body. -/
def respError400 : HttpResponse :=
  ⟨400, some (.obj [("error", .obj [("message", .str "bad request")])]), "raw body"⟩

/-- An edit environment in which every path exists, opening succeeds, and
the transport returns a 200 response with one image. -/
def editEnvOk : EditEnv :=
  ⟨fun _ => true, fun _ => true,
   some ⟨200, some (.obj [("data", .arr [.obj [("b64_json", .str "QUJD")]])]), ""⟩,
   "", testEnv⟩

/-- An edit environment in which no path exists on disk. -/
def editEnvMissing : EditEnv :=
  ⟨fun _ => false, fun _ => true, some respTwoImages, "", testEnv⟩

/-- A one-image edit invocation without a mask. -/
def editArgsOne : EditArgs :=
  ⟨["in.png"], "add a hat", none, 1, "low", "1024x1024", none, "edi"⟩

/-! ## Association-list facts -/

theorem lookup_imp_any {β : Type} {fs : List (String × β)} {k : String} {v : β}
    (h : fs.lookup k = some v) : (fs.any fun kv => kv.1 == k) = true := by
  induction fs with
  | nil => simp [List.lookup] at h
  | cons hd tl ih =>
    cases hd with
    | mk a b =>
      rw [List.lookup] at h
      by_cases hk : k = a
      · simp [List.any_cons, hk]
      · have hb : (k == a) = false := beq_false_of_ne hk
        rw [hb] at h
        simp only [List.any_cons]
        have : (a == k) = false := beq_false_of_ne (fun hh => hk hh.symm)
        rw [this]
        simp only [Bool.false_or]
        exact ih h

theorem lookup_none_imp_any {β : Type} {fs : List (String × β)} {k : String}
    (h : fs.lookup k = none) : (fs.any fun kv => kv.1 == k) = false := by
  induction fs with
  | nil => simp
  | cons hd tl ih =>
    cases hd with
    | mk a b =>
      rw [List.lookup] at h
      by_cases hk : k = a
      · subst hk; simp at h
      · have hb : (k == a) = false := beq_false_of_ne hk
        rw [hb] at h
        simp only [List.any_cons]
        have : (a == k) = false := beq_false_of_ne (fun hh => hk hh.symm)
        rw [this]
        simp only [Bool.false_or]
        exact ih h

theorem any_imp_lookup {β : Type} {fs : List (String × β)} {k : String}
    (h : (fs.any fun kv => kv.1 == k) = true) : ∃ v, fs.lookup k = some v := by
  cases hl : fs.lookup k with
  | some v => exact ⟨v, rfl⟩
  | none => rw [lookup_none_imp_any hl] at h; cases h

/-! ## Decimal-digit and timestamp facts -/

theorem ofNat_digit_isDigit : ∀ m, m < 10 → (Char.ofNat (48 + m)).isDigit = true := by
  decide

theorem natDigitsAux_fuel_invariant :
    ∀ f1 f2 n, n < f1 → n < f2 → natDigitsAux f1 n = natDigitsAux f2 n := by
  intro f1
  induction f1 with
  | zero => omega
  | succ f1 ih =>
    intro f2 n h1 h2
    cases f2 with
    | zero => omega
    | succ f2 =>
      simp only [natDigitsAux]
      by_cases h : n < 10
      · simp [h]
      · have hdiv : n / 10 < n := Nat.div_lt_self (by omega) (by omega)
        rw [if_neg h, if_neg h, ih f2 (n / 10) (by omega) (by omega)]

theorem natDigits_unfold (n : Nat) :
    natDigits n = if n < 10 then [Char.ofNat (48 + n)]
      else natDigits (n / 10) ++ [Char.ofNat (48 + n % 10)] := by
  unfold natDigits
  rw [natDigitsAux]
  by_cases h : n < 10
  · simp [h]
  · have hdiv : n / 10 < n := Nat.div_lt_self (by omega) (by omega)
    rw [if_neg h, if_neg h,
      natDigitsAux_fuel_invariant n (n / 10 + 1) (n / 10) (by omega) (by omega)]

theorem natDigits_all_digit (n : Nat) : ∀ c ∈ natDigits n, c.isDigit = true := by
  induction n using Nat.strong_induction_on with
  | _ n ih =>
    rw [natDigits_unfold]
    split
    · intro c hc
      rw [List.mem_singleton] at hc
      subst hc
      exact ofNat_digit_isDigit n (by omega)
    · intro c hc
      rcases List.mem_append.1 hc with h | h
      · exact ih (n / 10) (Nat.div_lt_self (by omega) (by omega)) c h
      · rw [List.mem_singleton] at h
        subst h
        exact ofNat_digit_isDigit (n % 10) (Nat.mod_lt _ (by omega))

theorem natDigits_length_le : ∀ (k n : Nat), 0 < k → n < 10 ^ k →
    (natDigits n).length ≤ k := by
  intro k
  induction k with
  | zero => intro n h; omega
  | succ k ih =>
    intro n _ hn
    rw [natDigits_unfold]
    split
    · simp
    · rename_i h
      rw [List.length_append, List.length_singleton]
      have hk : 0 < k := by
        rcases Nat.eq_zero_or_pos k with h0 | h0
        · subst h0; simp at hn; omega
        · exact h0
      have h10 : n / 10 < 10 ^ k := by
        rw [Nat.div_lt_iff_lt_mul (by omega)]
        calc n < 10 ^ (k + 1) := hn
        _ = 10 ^ k * 10 := by ring
      have := ih (n / 10) hk h10
      omega

theorem padL_length (k n : Nat) (h : (natDigits n).length ≤ k) :
    (padL k n).length = k := by
  simp [padL]
  omega

theorem padL_all_digit (k n : Nat) : ∀ c ∈ padL k n, c.isDigit = true := by
  intro c hc
  rcases List.mem_append.1 hc with h | h
  · rw [List.eq_of_mem_replicate h]; decide
  · exact natDigits_all_digit n c h

theorem strftimeYmdHms_form (d : PyDateTime) (hd : d.Valid) :
    TimestampForm (strftimeYmdHms d) := by
  obtain ⟨h1, h2, h3, h4, h5, h6, h7, h8, h9⟩ := hd
  have ly : (natDigits d.year).length ≤ 4 :=
    natDigits_length_le 4 d.year (by omega) (by omega)
  have lmo : (natDigits d.month).length ≤ 2 :=
    natDigits_length_le 2 d.month (by omega) (by omega)
  have lda : (natDigits d.day).length ≤ 2 :=
    natDigits_length_le 2 d.day (by omega) (by omega)
  have lho : (natDigits d.hour).length ≤ 2 :=
    natDigits_length_le 2 d.hour (by omega) (by omega)
  have lmi : (natDigits d.minute).length ≤ 2 :=
    natDigits_length_le 2 d.minute (by omega) (by omega)
  have lse : (natDigits d.second).length ≤ 2 :=
    natDigits_length_le 2 d.second (by omega) (by omega)
  refine ⟨padL 4 d.year ++ padL 2 d.month ++ padL 2 d.day,
    padL 2 d.hour ++ padL 2 d.minute ++ padL 2 d.second, ?_, ?_, ?_, ?_, ?_⟩
  · show padL 4 d.year ++ padL 2 d.month ++ padL 2 d.day ++ '_' ::
      (padL 2 d.hour ++ padL 2 d.minute ++ padL 2 d.second) = _
    simp
  · rw [List.length_append, List.length_append,
      padL_length 4 _ ly, padL_length 2 _ lmo, padL_length 2 _ lda]
  · rw [List.length_append, List.length_append,
      padL_length 2 _ lho, padL_length 2 _ lmi, padL_length 2 _ lse]
  · intro c hc
    rcases List.mem_append.1 hc with h | h
    · rcases List.mem_append.1 h with h | h
      · exact padL_all_digit _ _ c h
      · exact padL_all_digit _ _ c h
    · exact padL_all_digit _ _ c h
  · intro c hc
    rcases List.mem_append.1 hc with h | h
    · rcases List.mem_append.1 h with h | h
      · exact padL_all_digit _ _ c h
      · exact padL_all_digit _ _ c h
    · exact padL_all_digit _ _ c h

/-! ## Base64 round-trip facts -/

theorem b64charVal_b64char : ∀ k, k < 64 → b64charVal (b64char k) = some k := by
  decide

theorem b64char_big (n : Nat) (h : ¬n < 64) : b64char n = 'A' := by
  unfold b64char
  apply List.getD_eq_default
  have : b64alphabet.length = 64 := by decide
  omega

theorem b64charVal_b64char_isSome (n : Nat) :
    (b64charVal (b64char n)).isSome = true := by
  by_cases h : n < 64
  · rw [b64charVal_b64char n h]; rfl
  · rw [b64char_big n h]; decide

theorem b64char_ne_pad (n : Nat) : b64char n ≠ '=' := by
  by_cases h : n < 64
  · have : ∀ k, k < 64 → b64char k ≠ '=' := by decide
    exact this n h
  · rw [b64char_big n h]; decide

theorem b64encode_chars (bs : List Nat) :
    ∀ c ∈ b64encode bs, ((b64charVal c).isSome || c == '=') = true := by
  induction bs using b64encode.induct with
  | case1 =>
    intro c hc
    simp [b64encode] at hc
  | case2 b1 =>
    intro c hc
    rw [b64encode] at hc
    simp only [List.mem_cons, List.not_mem_nil, or_false] at hc
    rcases hc with rfl | rfl | rfl | rfl <;> simp [b64charVal_b64char_isSome]
  | case3 b1 b2 =>
    intro c hc
    rw [b64encode] at hc
    simp only [List.mem_cons, List.not_mem_nil, or_false] at hc
    rcases hc with rfl | rfl | rfl | rfl <;> simp [b64charVal_b64char_isSome]
  | case4 b1 b2 b3 rest ih =>
    intro c hc
    rw [b64encode] at hc
    simp only [List.mem_cons] at hc
    rcases hc with rfl | rfl | rfl | rfl | h
    · simp [b64charVal_b64char_isSome]
    · simp [b64charVal_b64char_isSome]
    · simp [b64charVal_b64char_isSome]
    · simp [b64charVal_b64char_isSome]
    · exact ih c h

theorem b64decodeCore_encode (bs : List Nat) (hb : ∀ b ∈ bs, b < 256) :
    b64decodeCore (b64encode bs) = some bs := by
  induction bs using b64encode.induct with
  | case1 => rfl
  | case2 b1 =>
    have hb1 : b1 < 256 := hb b1 (by simp)
    rw [b64encode]
    simp only [b64decodeCore, b64charVal_b64char (b1 / 4) (by omega),
      b64charVal_b64char (b1 % 4 * 16) (by omega)]
    simp
    omega
  | case3 b1 b2 =>
    have hb1 : b1 < 256 := hb b1 (by simp)
    have hb2 : b2 < 256 := hb b2 (by simp)
    rw [b64encode]
    simp only [b64decodeCore, b64charVal_b64char (b1 / 4) (by omega),
      b64charVal_b64char (b1 % 4 * 16 + b2 / 16) (by omega),
      b64charVal_b64char (b2 % 16 * 4) (by omega)]
    simp [b64char_ne_pad]
    omega
  | case4 b1 b2 b3 rest ih =>
    have hb1 : b1 < 256 := hb b1 (by simp)
    have hb2 : b2 < 256 := hb b2 (by simp)
    have hb3 : b3 < 256 := hb b3 (by simp)
    have ih2 := ih (fun b hm => hb b (by simp [hm]))
    rw [b64encode]
    simp only [b64decodeCore, b64charVal_b64char (b1 / 4) (by omega),
      b64charVal_b64char (b1 % 4 * 16 + b2 / 16) (by omega),
      b64charVal_b64char (b2 % 16 * 4 + b3 / 64) (by omega),
      b64charVal_b64char (b3 % 64) (by omega)]
    simp [b64char_ne_pad, ih2]
    omega

theorem b64decode_encode (bs : List Nat) (hb : ∀ b ∈ bs, b < 256) :
    b64decode ⟨b64encode bs⟩ = some bs := by
  unfold b64decode
  have hdata : (String.mk (b64encode bs)).data = b64encode bs := rfl
  rw [hdata, List.filter_eq_self.mpr (b64encode_chars bs),
    b64decodeCore_encode bs hb]

/-! ## Trace-classification facts -/

/-- A trace consisting solely of console prints. -/
def printsOnly (evs : List Event) : Prop := ∀ e ∈ evs, isPrintEv e = true

theorem printsOnly_nil : printsOnly [] := by intro e he; cases he

theorem printsOnly_append {l1 l2 : List Event} (h1 : printsOnly l1)
    (h2 : printsOnly l2) : printsOnly (l1 ++ l2) := by
  intro e he
  rcases List.mem_append.1 he with h | h
  · exact h1 e h
  · exact h2 e h

theorem printsOnly_obs {evs : List Event} (h : printsOnly evs) :
    persistIdxs evs = [] ∧ writeNames evs = [] ∧ openedPaths evs = [] ∧
      closedPaths evs = [] ∧ postCount evs = 0 := by
  induction evs with
  | nil => simp [persistIdxs, writeNames, openedPaths, closedPaths, postCount]
  | cons e tl ih =>
    have he : isPrintEv e = true := h e (by simp)
    have htl := ih fun x hx => h x (by simp [hx])
    cases e <;> simp [isPrintEv] at he ⊢ <;>
      simp [persistIdxs, writeNames, openedPaths, closedPaths, postCount] at htl ⊢ <;>
      exact htl

theorem startsWith_append (pre s t : String) (h : startsWith pre s = true) :
    startsWith pre (s ++ t) = true := by
  unfold startsWith at *
  rw [List.isPrefixOf_iff_prefix] at *
  rw [String.data_append]
  exact h.trans (List.prefix_append _ _)

/-! ## `save_image_from_b64` facts -/

theorem save_fail_events (env : SaveEnv) (v : JsonVal) (p : String) (i : Nat)
    (f : String) (h : (save_image_from_b64 env v p i f).2 = none) :
    ∃ m, (save_image_from_b64 env v p i f).1 = [Event.print m] ∧
      startsWith "Error saving image" m = true := by
  cases hd : pyB64Decode v with
  | none =>
    refine ⟨"Error saving image: could not decode base64 payload",
      by simp [save_image_from_b64, hd], by decide⟩
  | some bs =>
    by_cases hw : env.writeOk
        (p ++ "_" ++ strftimeYmdHms env.now ++ "_" ++ pyNatStr (i + 1) ++ "." ++ f)
    · exfalso
      simp [save_image_from_b64, hd, hw] at h
    · refine ⟨"Error saving image: could not write file " ++
        (p ++ "_" ++ strftimeYmdHms env.now ++ "_" ++ pyNatStr (i + 1) ++ "." ++ f),
        by simp [save_image_from_b64, hd, hw], ?_⟩
      exact startsWith_append _ "Error saving image: could not write file " _ (by decide)

theorem save_succ_events (env : SaveEnv) (v : JsonVal) (p : String) (i : Nat)
    (f : String) (fn : String) (h : (save_image_from_b64 env v p i f).2 = some fn) :
    ∃ bs, pyB64Decode v = some bs ∧
      (save_image_from_b64 env v p i f).1 =
        [Event.write fn bs, Event.print ("Saved image: " ++ fn)] ∧
      fn = p ++ "_" ++ strftimeYmdHms env.now ++ "_" ++ pyNatStr (i + 1) ++ "." ++ f := by
  cases hd : pyB64Decode v with
  | none => simp [save_image_from_b64, hd] at h
  | some bs =>
    by_cases hw : env.writeOk
        (p ++ "_" ++ strftimeYmdHms env.now ++ "_" ++ pyNatStr (i + 1) ++ "." ++ f)
    · have hfn : fn = p ++ "_" ++ strftimeYmdHms env.now ++ "_" ++ pyNatStr (i + 1) ++ "." ++ f := by
        simp [save_image_from_b64, hd, hw] at h
        exact h.symm
      subst hfn
      refine ⟨bs, rfl, ?_, rfl⟩
      simp [save_image_from_b64, hd, hw]
    · simp [save_image_from_b64, hd, hw] at h

theorem save_events_shape (env : SaveEnv) (v : JsonVal) (p : String) (i : Nat)
    (f : String) :
    (∃ m, (save_image_from_b64 env v p i f).1 = [Event.print m]) ∨
    (∃ bs, (save_image_from_b64 env v p i f).1 =
      [Event.write (p ++ "_" ++ strftimeYmdHms env.now ++ "_" ++ pyNatStr (i + 1) ++ "." ++ f) bs,
       Event.print ("Saved image: " ++
         (p ++ "_" ++ strftimeYmdHms env.now ++ "_" ++ pyNatStr (i + 1) ++ "." ++ f))]) := by
  cases hd : pyB64Decode v with
  | none =>
    exact .inl ⟨"Error saving image: could not decode base64 payload",
      by simp [save_image_from_b64, hd]⟩
  | some bs =>
    by_cases hw : env.writeOk
        (p ++ "_" ++ strftimeYmdHms env.now ++ "_" ++ pyNatStr (i + 1) ++ "." ++ f)
    · exact .inr ⟨bs, by simp [save_image_from_b64, hd, hw]⟩
    · exact .inl ⟨"Error saving image: could not write file " ++
        (p ++ "_" ++ strftimeYmdHms env.now ++ "_" ++ pyNatStr (i + 1) ++ "." ++ f),
        by simp [save_image_from_b64, hd, hw]⟩

theorem save_obs (env : SaveEnv) (v : JsonVal) (p : String) (i : Nat) (f : String) :
    persistIdxs (save_image_from_b64 env v p i f).1 = [] ∧
    openedPaths (save_image_from_b64 env v p i f).1 = [] ∧
    closedPaths (save_image_from_b64 env v p i f).1 = [] ∧
    postCount (save_image_from_b64 env v p i f).1 = 0 := by
  rcases save_events_shape env v p i f with ⟨m, hm⟩ | ⟨bs, hm⟩ <;>
    rw [hm] <;>
    simp [persistIdxs, openedPaths, closedPaths, postCount]

/-! ## Response-handler structure facts -/

theorem pyContains_obj (k : String) (fs : List (String × JsonVal)) :
    pyContains k (.obj fs) = .ok (fs.any fun kv => kv.1 == k) := rfl

theorem pySubscript_obj {fs : List (String × JsonVal)} {k : String} {v : JsonVal}
    (h : fs.lookup k = some v) : pySubscript k (.obj fs) = .ok v := by
  simp [pySubscript, h]

theorem elifChain_prints (data : JsonVal) : printsOnly (elifChain data).1 := by
  unfold elifChain
  split
  · exact printsOnly_nil
  · split
    · exact printsOnly_nil
    · split
      · intro e he; simp at he; subst he; rfl
      · split
        · exact printsOnly_nil
        · intro e he; simp at he; subst he; rfl
  · intro e he; simp at he; subst he; rfl

theorem usageBlock_prints (u : JsonVal) : printsOnly (usageBlock u).1 := by
  unfold usageBlock
  split
  · split
    · split
      · intro e he
        simp at he
        rcases he with rfl | rfl | rfl | rfl | rfl | rfl <;> rfl
      · intro e he
        simp at he
        rcases he with rfl | rfl | rfl | rfl <;> rfl
    · intro e he
      simp at he
      rcases he with rfl | rfl | rfl | rfl <;> rfl
  · intro e he
    simp at he
    subst he
    rfl

theorem afterData_prints (data : JsonVal) : printsOnly (afterData data).1 := by
  unfold afterData
  split
  · exact printsOnly_nil
  · split
    · exact printsOnly_nil
    · split
      · exact elifChain_prints data
      · exact usageBlock_prints _
  · exact elifChain_prints data

/-- On a 200 response whose body is a dict with a `"data"` list, the handler
trace is the item loop's trace followed by a print-only tail. -/
theorem handle_200_obj (env : SaveEnv) (resp : HttpResponse) (p f : String)
    (fs : List (String × JsonVal)) (items : List JsonVal)
    (h200 : resp.status_code = 200)
    (hbody : resp.jsonBody = some (JsonVal.obj fs))
    (hdata : fs.lookup "data" = some (JsonVal.arr items)) :
    ∃ tail, handle_api_response env resp p f =
      (processItems env p f 0 items).1 ++ tail ∧ printsOnly tail := by
  have hany := lookup_imp_any hdata
  rw [handle_api_response, if_pos h200, hbody]
  simp only [handleParsed, pyContains_obj, hany, pySubscript_obj hdata]
  cases hr : (processItems env p f 0 items).2 with
  | some e =>
    refine ⟨[Event.print ("An error occurred while processing the response: " ++ e),
      Event.print ("Raw response JSON: " ++ pyStr (JsonVal.obj fs))], ?_, ?_⟩
    · simp [hr]
    · intro x hx
      simp at hx
      rcases hx with rfl | rfl <;> rfl
  | none =>
    cases ha : (afterData (JsonVal.obj fs)).2 with
    | none =>
      refine ⟨(afterData (JsonVal.obj fs)).1, ?_, afterData_prints _⟩
      simp [hr, ha]
    | some e =>
      refine ⟨(afterData (JsonVal.obj fs)).1 ++
        [Event.print ("An error occurred while processing the response: " ++ e),
         Event.print ("Raw response JSON: " ++ pyStr (JsonVal.obj fs))], ?_, ?_⟩
      · simp [hr, ha]
      · refine printsOnly_append (afterData_prints _) ?_
        intro x hx
        simp at hx
        rcases hx with rfl | rfl <;> rfl

/-! ## Item-loop facts -/

theorem hasB64_obj {it : JsonVal} (h : hasB64Field it = true) :
    ∃ fs v, it = JsonVal.obj fs ∧ fs.lookup "b64_json" = some v ∧ getB64 it = v := by
  cases it with
  | obj fs =>
    have h' : (fs.any fun kv => kv.1 == "b64_json") = true := h
    obtain ⟨v, hv⟩ := any_imp_lookup h'
    exact ⟨fs, v, rfl, hv, by simp [getB64, hv]⟩
  | null => exact absurd h (by simp [hasB64Field])
  | bool b => exact absurd h (by simp [hasB64Field])
  | num n => exact absurd h (by simp [hasB64Field])
  | str s => exact absurd h (by simp [hasB64Field])
  | arr xs => exact absurd h (by simp [hasB64Field])

/-- When every item carries the payload key, the loop raises nothing and
invokes the persister once per item, at the consecutive indices. -/
theorem processItems_all_b64 (env : SaveEnv) (p f : String) :
    ∀ (items : List JsonVal) (s : Nat), (∀ it ∈ items, hasB64Field it = true) →
    (processItems env p f s items).2 = none ∧
    persistIdxs (processItems env p f s items).1 = List.range' s items.length := by
  intro items
  induction items with
  | nil =>
    intro s _
    simp [processItems, persistIdxs]
  | cons item rest ih =>
    intro s hall
    obtain ⟨fs, v, rfl, hv, hg⟩ := hasB64_obj (hall item (by simp))
    have hany : (fs.any fun kv => kv.1 == "b64_json") = true := lookup_imp_any hv
    obtain ⟨ih1, ih2⟩ := ih (s + 1) fun it h => hall it (by simp [h])
    simp only [processItems, pyContains_obj, hany, pySubscript_obj hv]
    constructor
    · exact ih1
    · simp only [persistIdxs, List.filterMap_cons, List.filterMap_append]
      have hs := (save_obs env v p s f).1
      rw [persistIdxs] at hs
      rw [hs, List.length_cons, List.range'_succ]
      rw [← ih2]
      rfl

/-- Every save the loop performs for an item carrying the payload key
appears contiguously in the loop's trace. -/
theorem processItems_save_infix (env : SaveEnv) (p f : String) :
    ∀ (items : List JsonVal) (s j : Nat), j < items.length →
    (∀ it ∈ items, isObjVal it = true) →
    hasB64Field (items.getD j .null) = true →
    (save_image_from_b64 env (getB64 (items.getD j .null)) p (s + j) f).1 <:+:
      (processItems env p f s items).1 := by
  intro items
  induction items with
  | nil =>
    intro s j hj
    simp at hj
  | cons item rest ih =>
    intro s j hj hobj hb
    cases j with
    | zero =>
      simp only [List.getD_cons_zero] at hb ⊢
      obtain ⟨fs, v, rfl, hv, hg⟩ := hasB64_obj hb
      have hany : (fs.any fun kv => kv.1 == "b64_json") = true := lookup_imp_any hv
      simp only [processItems, pyContains_obj, hany, pySubscript_obj hv]
      rw [hg, Nat.add_zero]
      exact ⟨[Event.persistCall v p s f], (processItems env p f (s + 1) rest).1, by simp⟩
    | succ j =>
      simp only [List.getD_cons_succ] at hb ⊢
      have hrec := ih (s + 1) j (by simp at hj; omega)
        (fun it h => hobj it (by simp [h])) hb
      have harith : s + 1 + j = s + (j + 1) := by omega
      rw [harith] at hrec
      obtain ⟨a, b, hab⟩ := hrec
      have hitem : isObjVal item = true := hobj item (by simp)
      cases item <;> simp [isObjVal] at hitem
      case obj fs =>
        simp only [processItems, pyContains_obj]
        cases hany : (fs.any fun kv => kv.1 == "b64_json") with
        | true =>
          obtain ⟨v, hv⟩ := any_imp_lookup hany
          simp only [pySubscript_obj hv]
          refine ⟨Event.persistCall v p s f :: (save_image_from_b64 env v p s f).1 ++ a,
            b, ?_⟩
          rw [← hab]
          simp
        | false =>
          simp only
          refine ⟨Event.print (itemWarning s (JsonVal.obj fs)) :: a, b, ?_⟩
          rw [← hab]
          simp

/-- An item without the payload key yields the indexed warning print. -/
theorem processItems_warning (env : SaveEnv) (p f : String) :
    ∀ (items : List JsonVal) (s j : Nat), j < items.length →
    (∀ it ∈ items, isObjVal it = true) →
    hasB64Field (items.getD j .null) = false →
    Event.print (itemWarning (s + j) (items.getD j .null)) ∈
      (processItems env p f s items).1 := by
  intro items
  induction items with
  | nil =>
    intro s j hj
    simp at hj
  | cons item rest ih =>
    intro s j hj hobj hb
    have hitem : isObjVal item = true := hobj item (by simp)
    cases item <;> simp [isObjVal] at hitem
    case obj fs =>
      cases j with
      | zero =>
        simp only [List.getD_cons_zero] at hb ⊢
        have hany : (fs.any fun kv => kv.1 == "b64_json") = false := hb
        simp only [processItems, pyContains_obj, hany, Nat.add_zero]
        simp
      | succ j =>
        simp only [List.getD_cons_succ] at hb ⊢
        have hrec := ih (s + 1) j (by simp at hj; omega)
          (fun it h => hobj it (by simp [h])) hb
        have harith : s + 1 + j = s + (j + 1) := by omega
        rw [harith] at hrec
        simp only [processItems, pyContains_obj]
        cases hany : (fs.any fun kv => kv.1 == "b64_json") with
        | true =>
          obtain ⟨v, hv⟩ := any_imp_lookup hany
          simp only [pySubscript_obj hv]
          exact List.mem_cons_of_mem _ (List.mem_append_right _ hrec)
        | false =>
          simp only
          exact List.mem_cons_of_mem _ hrec

/-! ## Trace-observation algebra -/

theorem persistIdxs_append (l1 l2 : List Event) :
    persistIdxs (l1 ++ l2) = persistIdxs l1 ++ persistIdxs l2 := by
  simp [persistIdxs]

theorem writeNames_append (l1 l2 : List Event) :
    writeNames (l1 ++ l2) = writeNames l1 ++ writeNames l2 := by
  simp [writeNames]

theorem openedPaths_append (l1 l2 : List Event) :
    openedPaths (l1 ++ l2) = openedPaths l1 ++ openedPaths l2 := by
  simp [openedPaths]

theorem closedPaths_append (l1 l2 : List Event) :
    closedPaths (l1 ++ l2) = closedPaths l1 ++ closedPaths l2 := by
  simp [closedPaths]

theorem postCount_append (l1 l2 : List Event) :
    postCount (l1 ++ l2) = postCount l1 + postCount l2 := by
  simp [postCount]

theorem openedPaths_map_openFile (l : List String) :
    openedPaths (l.map Event.openFile) = l := by
  induction l with
  | nil => rfl
  | cons p tl ih => simp [openedPaths] at ih ⊢; exact ih

theorem closedPaths_map_closeFile (l : List String) :
    closedPaths (l.map Event.closeFile) = l := by
  induction l with
  | nil => rfl
  | cons p tl ih => simp [closedPaths] at ih ⊢; exact ih

theorem openedPaths_map_closeFile (l : List String) :
    openedPaths (l.map Event.closeFile) = [] := by
  induction l with
  | nil => rfl
  | cons p tl ih => simp [openedPaths, ih]

theorem closedPaths_map_openFile (l : List String) :
    closedPaths (l.map Event.openFile) = [] := by
  induction l with
  | nil => rfl
  | cons p tl ih => simp [closedPaths, ih]

theorem postCount_map_openFile (l : List String) :
    postCount (l.map Event.openFile) = 0 := by
  induction l with
  | nil => rfl
  | cons p tl ih => simp [postCount, ih]

theorem postCount_map_closeFile (l : List String) :
    postCount (l.map Event.closeFile) = 0 := by
  induction l with
  | nil => rfl
  | cons p tl ih => simp [postCount, ih]

/-! ## The handler issues no network or file-handle events -/

theorem processItems_no_net (env : SaveEnv) (p f : String) :
    ∀ (items : List JsonVal) (s : Nat),
    openedPaths (processItems env p f s items).1 = [] ∧
    closedPaths (processItems env p f s items).1 = [] ∧
    postCount (processItems env p f s items).1 = 0 := by
  intro items
  induction items with
  | nil =>
    intro s
    simp [processItems, openedPaths, closedPaths, postCount]
  | cons item rest ih =>
    intro s
    obtain ⟨ih1, ih2, ih3⟩ := ih (s + 1)
    simp only [processItems]
    split
    · simp [openedPaths, closedPaths, postCount]
    · split
      · simp [openedPaths, closedPaths, postCount]
      · rename_i v heq
        obtain ⟨hs1, hs2, hs3, hs4⟩ := save_obs env v p s f
        simp only [openedPaths, closedPaths, postCount, List.filterMap_cons,
          List.filter_cons, List.filterMap_append, List.filter_append] at *
        simp [ih1, ih2, ih3, hs2, hs3, hs4]
    · simp only [openedPaths, closedPaths, postCount, List.filterMap_cons,
        List.filter_cons] at *
      simp [ih1, ih2, ih3]

theorem printsOnly_no_net {evs : List Event} (h : printsOnly evs) :
    openedPaths evs = [] ∧ closedPaths evs = [] ∧ postCount evs = 0 := by
  obtain ⟨-, -, h3, h4, h5⟩ := printsOnly_obs h
  exact ⟨h3, h4, h5⟩

theorem handleParsed_no_net (env : SaveEnv) (data : JsonVal) (p f : String) :
    openedPaths (handleParsed env data p f).1 = [] ∧
    closedPaths (handleParsed env data p f).1 = [] ∧
    postCount (handleParsed env data p f).1 = 0 := by
  obtain ⟨a1, a2, a3⟩ := printsOnly_no_net (afterData_prints data)
  unfold handleParsed
  split
  · simp [openedPaths, closedPaths, postCount]
  · split
    · simp [openedPaths, closedPaths, postCount]
    · split
      · rename_i items heq
        obtain ⟨n1, n2, n3⟩ := processItems_no_net env p f items 0
        cases hr : (processItems env p f 0 items).2 with
        | some e =>
          simp only [hr]
          exact ⟨n1, n2, n3⟩
        | none =>
          simp only [hr]
          simp [openedPaths_append, closedPaths_append, postCount_append,
            n1, n2, n3, a1, a2, a3]
      · simp only [openedPaths, closedPaths, postCount, List.filterMap_cons,
          List.filter_cons] at a1 a2 a3 ⊢
        simp [a1, a2, a3]
  · simp only [openedPaths, closedPaths, postCount, List.filterMap_cons,
      List.filter_cons] at a1 a2 a3 ⊢
    simp [a1, a2, a3]

theorem handle_no_net (env : SaveEnv) (resp : HttpResponse) (p f : String) :
    openedPaths (handle_api_response env resp p f) = [] ∧
    closedPaths (handle_api_response env resp p f) = [] ∧
    postCount (handle_api_response env resp p f) = 0 := by
  unfold handle_api_response
  split
  · split
    · simp [openedPaths, closedPaths, postCount]
    · rename_i data _
      obtain ⟨p1, p2, p3⟩ := handleParsed_no_net env data p f
      cases hq : (handleParsed env data p f).2 with
      | none =>
        simp only [hq]
        exact ⟨p1, p2, p3⟩
      | some e =>
        simp only [hq]
        have hp : printsOnly
            [Event.print ("An error occurred while processing the response: " ++ e),
             Event.print ("Raw response JSON: " ++ pyStr data)] := by
          intro x hx
          simp at hx
          rcases hx with rfl | rfl <;> rfl
        obtain ⟨a1, a2, a3⟩ := printsOnly_no_net hp
        simp [openedPaths_append, closedPaths_append, postCount_append,
          p1, p2, p3, a1, a2, a3]
  · split <;> simp [openedPaths, closedPaths, postCount]

/-! ## Write-filename format facts -/

theorem writeNames_printsOnly {evs : List Event} (h : printsOnly evs) :
    writeNames evs = [] := (printsOnly_obs h).2.1

theorem writeNames_save (env : SaveEnv) (v : JsonVal) (p : String) (i : Nat)
    (f : String) :
    ∀ fn ∈ writeNames (save_image_from_b64 env v p i f).1,
      ∃ stem, fn = stem ++ ("." ++ f) := by
  rcases save_events_shape env v p i f with ⟨m, hm⟩ | ⟨bs, hm⟩ <;> rw [hm]
  · simp [writeNames]
  · intro fn hfn
    simp [writeNames] at hfn
    subst hfn
    refine ⟨p ++ "_" ++ strftimeYmdHms env.now ++ "_" ++ pyNatStr (i + 1), ?_⟩
    rw [String.append_assoc]

theorem writeNames_processItems (env : SaveEnv) (p f : String) :
    ∀ (items : List JsonVal) (s : Nat),
    ∀ fn ∈ writeNames (processItems env p f s items).1,
      ∃ stem, fn = stem ++ ("." ++ f) := by
  intro items
  induction items with
  | nil =>
    intro s fn hfn
    simp [processItems, writeNames] at hfn
  | cons item rest ih =>
    intro s fn hfn
    simp only [processItems] at hfn
    rcases hc : pyContains "b64_json" item with e | b
    · rw [hc] at hfn
      simp [writeNames] at hfn
    · rw [hc] at hfn
      cases b with
      | true =>
        rcases hsub : pySubscript "b64_json" item with e | v
        · rw [hsub] at hfn
          simp [writeNames] at hfn
        · rw [hsub] at hfn
          simp only [writeNames, List.filterMap_cons, List.filterMap_append] at hfn
          simp only [writeNames] at ih
          rcases List.mem_append.1 hfn with h | h
          · exact writeNames_save env v p s f fn (by rw [writeNames]; exact h)
          · exact ih (s + 1) fn h
      | false =>
        simp only [writeNames, List.filterMap_cons] at hfn
        simp only [writeNames] at ih
        exact ih (s + 1) fn hfn

theorem writeNames_handle (env : SaveEnv) (resp : HttpResponse) (p f : String) :
    ∀ fn ∈ writeNames (handle_api_response env resp p f),
      ∃ stem, fn = stem ++ ("." ++ f) := by
  intro fn hfn
  unfold handle_api_response at hfn
  split at hfn
  · split at hfn
    · simp [writeNames] at hfn
    · rename_i data _
      have hparsed : ∀ fn2 ∈ writeNames (handleParsed env data p f).1,
          ∃ stem, fn2 = stem ++ ("." ++ f) := by
        intro fn2 hfn2
        unfold handleParsed at hfn2
        split at hfn2
        · simp [writeNames] at hfn2
        · split at hfn2
          · simp [writeNames] at hfn2
          · split at hfn2
            · rename_i items heq
              cases hr : (processItems env p f 0 items).2 with
              | some e =>
                simp only [hr] at hfn2
                exact writeNames_processItems env p f items 0 fn2 hfn2
              | none =>
                simp only [hr, writeNames_append] at hfn2
                rcases List.mem_append.1 hfn2 with h | h
                · exact writeNames_processItems env p f items 0 fn2 h
                · rw [writeNames_printsOnly (afterData_prints data)] at h
                  cases h
            · simp only [writeNames, List.filterMap_cons] at hfn2
              rw [← writeNames] at hfn2
              rw [writeNames_printsOnly (afterData_prints data)] at hfn2
              cases hfn2
        · simp only [writeNames, List.filterMap_cons] at hfn2
          rw [← writeNames] at hfn2
          rw [writeNames_printsOnly (afterData_prints data)] at hfn2
          cases hfn2
      cases hq : (handleParsed env data p f).2 with
      | none =>
        simp only [hq] at hfn
        exact hparsed fn hfn
      | some e =>
        simp only [hq, writeNames_append] at hfn
        rcases List.mem_append.1 hfn with h | h
        · exact hparsed fn h
        · simp [writeNames] at h
  · split at hfn <;> simp [writeNames] at hfn

/-! ## Edit-path facts -/

theorem writeNames_map_openFile (l : List String) :
    writeNames (l.map Event.openFile) = [] := by
  induction l with
  | nil => rfl
  | cons p tl ih => simp [writeNames, ih]

theorem writeNames_map_closeFile (l : List String) :
    writeNames (l.map Event.closeFile) = [] := by
  induction l with
  | nil => rfl
  | cons p tl ih => simp [writeNames, ih]

theorem editHeader_prints (args : EditArgs) : printsOnly (editHeader args) := by
  intro e he
  unfold editHeader at he
  rcases List.mem_append.1 he with h | h
  · rcases List.mem_append.1 h with h2 | h2
    · simp at h2
      subst h2
      rfl
    · split at h2
      · simp at h2
        subst h2
        rfl
      · cases h2
  · split at h
    · simp at h
      subst h
      rfl
    · cases h

theorem openLoop_evs (env : EditEnv) :
    ∀ paths : List String,
    (openLoop env paths).1 = (openLoop env paths).2.1.map Event.openFile := by
  intro paths
  induction paths with
  | nil => rfl
  | cons p rest ih =>
    unfold openLoop
    split
    · rfl
    · split
      · rfl
      · simp [ih]

theorem openLoop_complete (env : EditEnv) :
    ∀ paths : List String, (openLoop env paths).2.2 = none →
    ∀ q ∈ paths, env.pathExists q = true := by
  intro paths
  induction paths with
  | nil => intro _ q hq; cases hq
  | cons p rest ih =>
    intro hnone q hq
    unfold openLoop at hnone
    split at hnone
    · cases hnone
    · split at hnone
      · cases hnone
      · rename_i hex _
        simp only [Bool.not_eq_false] at hex
        rcases List.mem_cons.1 hq with rfl | hq2
        · simpa using hex
        · exact ih (by simpa using hnone) q hq2

theorem maskStep_evs (env : EditEnv) (args : EditArgs) :
    (maskStep env args).1 = (maskStep env args).2.1.map Event.openFile := by
  unfold maskStep
  split
  · rfl
  · split
    · rfl
    · split
      · rfl
      · split
        · rfl
        · rfl

theorem mem_writeNames {fn : String} {bs : List Nat} {evs : List Event}
    (h : Event.write fn bs ∈ evs) : fn ∈ writeNames evs := by
  simp only [writeNames, List.mem_filterMap]
  exact ⟨Event.write fn bs, h, rfl⟩

theorem hasWrite_mem {fn : String} {bs : List Nat} {evs : List Event}
    (h : hasWrite fn bs evs = true) : Event.write fn bs ∈ evs := by
  simp only [hasWrite, List.any_eq_true] at h
  obtain ⟨e, he, hpred⟩ := h
  cases e <;> simp at hpred
  case write fn2 bs2 =>
    obtain ⟨h1, h2⟩ := hpred
    subst h1
    subst h2
    exact he

theorem openedPaths_cons_print (m : String) (l : List Event) :
    openedPaths (Event.print m :: l) = openedPaths l := rfl

theorem closedPaths_cons_print (m : String) (l : List Event) :
    closedPaths (Event.print m :: l) = closedPaths l := rfl

theorem postCount_cons_print (m : String) (l : List Event) :
    postCount (Event.print m :: l) = postCount l := rfl

theorem writeNames_cons_print (m : String) (l : List Event) :
    writeNames (Event.print m :: l) = writeNames l := rfl

theorem openedPaths_cons_post (u : String) (l : List Event) :
    openedPaths (Event.httpPost u :: l) = openedPaths l := rfl

theorem closedPaths_cons_post (u : String) (l : List Event) :
    closedPaths (Event.httpPost u :: l) = closedPaths l := rfl

theorem writeNames_cons_post (u : String) (l : List Event) :
    writeNames (Event.httpPost u :: l) = writeNames l := rfl

theorem writeNames_edit (env : EditEnv) (args : EditArgs) :
    ∀ fn ∈ writeNames (edit_image env args), ∃ stem, fn = stem ++ ".png" := by
  have hdot : ("." ++ "png" : String) = ".png" := rfl
  have hhdr : writeNames (editHeader args) = [] :=
    writeNames_printsOnly (editHeader_prints args)
  intro fn hfn
  cases ho : (openLoop env args.image_paths).2.2 with
  | some msg =>
    simp only [edit_image, ho, writeNames_append, hhdr, openLoop_evs,
      writeNames_map_openFile, writeNames_cons_print, writeNames_map_closeFile] at hfn
    simp [writeNames] at hfn
  | none =>
    cases hm : (maskStep env args).2.2 with
    | some msg =>
      simp only [edit_image, ho, hm, writeNames_append, hhdr, openLoop_evs,
        maskStep_evs, writeNames_map_openFile, writeNames_cons_print,
        writeNames_map_closeFile] at hfn
      simp [writeNames] at hfn
    | none =>
      cases ht : env.transport with
      | some resp =>
        simp only [edit_image, ho, hm, ht, writeNames_append, hhdr, openLoop_evs,
          maskStep_evs, writeNames_map_openFile, writeNames_cons_post,
          writeNames_map_closeFile] at hfn
        simp only [writeNames, List.filterMap_nil, List.nil_append,
          List.append_nil] at hfn
        rw [← writeNames] at hfn
        obtain ⟨stem, hstem⟩ :=
          writeNames_handle env.saveEnv resp args.output_prefix "png" fn hfn
        exact ⟨stem, by rw [hstem, hdot]⟩
      | none =>
        simp only [edit_image, ho, hm, ht, writeNames_append, hhdr, openLoop_evs,
          maskStep_evs, writeNames_map_openFile, writeNames_cons_post,
          writeNames_cons_print, writeNames_map_closeFile] at hfn
        simp [writeNames] at hfn

theorem getD_mem_of_lt {α : Type} (l : List α) (i : Nat) (d : α)
    (h : i < l.length) : l.getD i d ∈ l := by
  rw [List.getD_eq_getElem?_getD]
  simp [List.getElem?_eq_getElem h]

theorem getB64_decode_none (it : JsonVal) (h : hasB64Field it = false) :
    pyB64Decode (getB64 it) = none := by
  cases it with
  | obj fs2 =>
    simp only [hasB64Field] at h
    have hl : fs2.lookup "b64_json" = none := by
      cases hl : fs2.lookup "b64_json" with
      | none => rfl
      | some v => rw [lookup_imp_any hl] at h; cases h
    simp [getB64, hl, pyB64Decode]
  | null => rfl
  | bool b => rfl
  | num n => rfl
  | str s => rfl
  | arr xs => rfl

theorem hasB64_of_save_succ (env : SaveEnv) (p f fn : String) (i : Nat)
    (it : JsonVal)
    (h : (save_image_from_b64 env (getB64 it) p i f).2 = some fn) :
    hasB64Field it = true := by
  cases hx : hasB64Field it with
  | true => rfl
  | false =>
    exfalso
    have hdec := getB64_decode_none it hx
    simp only [save_image_from_b64, hdec] at h
    simp at h

/-! ## Claim theorems -/

/-- C3: for every set of creation parameters, the creation payload contains
the `output_compression` key if and only if a compression value was supplied
and `output_format` is `"jpeg"` or `"webp"`; for every other format
(including `"png"`) the key is absent. -/
theorem create_payload_compression_iff (args : CreateArgs) :
    payloadHasKey "output_compression" (create_image_payload args) = true ↔
    (args.output_compression.isSome = true ∧
      (args.output_format = "jpeg" ∨ args.output_format = "webp")) := by
  unfold payloadHasKey create_image_payload
  by_cases hu : pyTruthyOptStr args.user = true <;>
  by_cases hm : (args.moderation != "") = true <;>
  by_cases hc : args.output_compression.isSome = true ∧
      (args.output_format = "jpeg" ∨ args.output_format = "webp") <;>
  simp [hu, hm, hc]

/-- C6: for every non-200 response, the handler prints the failure header and
then the structured error detail when the body parses, or the raw text when
it does not; the trace is exactly these prints and writes no file. -/
theorem non200_error_report (env : SaveEnv) (resp : HttpResponse) (p f : String)
    (h : resp.status_code ≠ 200) :
    handle_api_response env resp p f =
      Event.print ("Error: API request failed with status code " ++
          pyNatStr resp.status_code) ::
        (match resp.jsonBody with
         | some j => [Event.print ("Error details: " ++ jsonDumps j)]
         | none => [Event.print ("Could not parse error response: " ++ resp.text)]) ∧
    writeNames (handle_api_response env resp p f) = [] := by
  constructor
  · rw [handle_api_response, if_neg h]
  · rw [handle_api_response, if_neg h]
    cases resp.jsonBody <;> simp [writeNames]

/-- Witness for C6 at a concrete 400 response with a structured body. -/
theorem non200_error_report_witness :
    handle_api_response testEnv respError400 "gen" "png" =
      [Event.print ("Error: API request failed with status code " ++ pyNatStr 400),
       Event.print ("Error details: " ++
         jsonDumps (.obj [("error", .obj [("message", .str "bad request")])]))] ∧
    writeNames (handle_api_response testEnv respError400 "gen" "png") = [] :=
  non200_error_report testEnv respError400 "gen" "png" (by decide)

/-- C8: every successful save writes the file
`{prefix}_{timestamp}_{index+1}.{format}`, where the timestamp is in
`YYYYMMDD_HHMMSS` form whenever the clock reading is a valid datetime. -/
theorem save_filename_format (env : SaveEnv) (v : JsonVal) (p : String) (i : Nat)
    (f fn : String) (hvalid : env.now.Valid)
    (h : (save_image_from_b64 env v p i f).2 = some fn) :
    fn = p ++ "_" ++ strftimeYmdHms env.now ++ "_" ++ pyNatStr (i + 1) ++ "." ++ f ∧
    TimestampForm (strftimeYmdHms env.now) := by
  obtain ⟨bs, -, -, hfn⟩ := save_succ_events env v p i f fn h
  exact ⟨hfn, strftimeYmdHms_form env.now hvalid⟩

/-- Witness for C8 on a concrete save. -/
theorem save_filename_format_witness :
    testEnv.now.Valid ∧
    (save_image_from_b64 testEnv (.str "QUJD") "gen" 0 "png").2 =
      some "gen_20251012_131415_1.png" ∧
    ("gen_20251012_131415_1.png" =
      "gen" ++ "_" ++ strftimeYmdHms testEnv.now ++ "_" ++ pyNatStr (0 + 1) ++ "." ++ "png" ∧
    TimestampForm (strftimeYmdHms testEnv.now)) :=
  ⟨by decide, by decide,
    save_filename_format testEnv (.str "QUJD") "gen" 0 "png"
      "gen_20251012_131415_1.png" (by decide) (by decide)⟩

/-- C7: a payload that is the base64 encoding of a byte sequence decodes back
to exactly those bytes, and a successful save writes a file whose contents
are exactly those bytes. -/
theorem save_roundtrip (env : SaveEnv) (bs : List Nat) (p : String) (i : Nat)
    (f fn : String) (hb : ∀ b ∈ bs, b < 256)
    (h : (save_image_from_b64 env (.str ⟨b64encode bs⟩) p i f).2 = some fn) :
    b64decode ⟨b64encode bs⟩ = some bs ∧
    Event.write fn bs ∈ (save_image_from_b64 env (.str ⟨b64encode bs⟩) p i f).1 := by
  have hdec := b64decode_encode bs hb
  refine ⟨hdec, ?_⟩
  obtain ⟨bs2, hd2, hevs, -⟩ := save_succ_events env _ p i f fn h
  have hbs : bs2 = bs := by
    have hpy : pyB64Decode (.str ⟨b64encode bs⟩) = some bs := hdec
    rw [hpy] at hd2
    injection hd2 with h2
    exact h2.symm
  subst hbs
  rw [hevs]
  simp

/-- Witness for C7 on the bytes of "Hi". -/
theorem save_roundtrip_witness :
    (∀ b ∈ [72, 105], b < 256) ∧
    (save_image_from_b64 testEnv (.str ⟨b64encode [72, 105]⟩) "gen" 0 "png").2 =
      some "gen_20251012_131415_1.png" ∧
    (b64decode ⟨b64encode [72, 105]⟩ = some [72, 105] ∧
     Event.write "gen_20251012_131415_1.png" [72, 105] ∈
       (save_image_from_b64 testEnv (.str ⟨b64encode [72, 105]⟩) "gen" 0 "png").1) :=
  ⟨by decide, by decide,
    save_roundtrip testEnv [72, 105] "gen" 0 "png" "gen_20251012_131415_1.png"
      (by decide) (by decide)⟩

/-- C4: on a 200 response whose `"data"` list has `K` items that all carry
the payload field, the persister is invoked exactly `K` times, at the
positional indices `0, …, K-1` in order. -/
theorem handle_persist_indices (env : SaveEnv) (resp : HttpResponse)
    (p f : String) (fs : List (String × JsonVal)) (items : List JsonVal)
    (h200 : resp.status_code = 200)
    (hbody : resp.jsonBody = some (JsonVal.obj fs))
    (hdata : fs.lookup "data" = some (JsonVal.arr items))
    (hall : ∀ it ∈ items, hasB64Field it = true) :
    persistIdxs (handle_api_response env resp p f) = List.range items.length := by
  obtain ⟨tail, heq, htail⟩ := handle_200_obj env resp p f fs items h200 hbody hdata
  rw [heq, persistIdxs_append,
    (processItems_all_b64 env p f items 0 hall).2,
    (printsOnly_obs htail).1, List.range_eq_range']
  simp

/-- Witness for C4 on a concrete two-image response. -/
theorem handle_persist_indices_witness :
    persistIdxs (handle_api_response testEnv respTwoImages "gen" "png") =
      List.range 2 :=
  handle_persist_indices testEnv respTwoImages "gen" "png" _ _ rfl rfl rfl
    (by intro it hmem; simp at hmem; rcases hmem with rfl | rfl <;> rfl)

/-- C5: on a 200 response whose `"data"` list consists of dict items, a
failure saving the payload-carrying item `i` (bad base64 or failed write)
is reported by an `Error saving image` print, and does not prevent
persisting any later item of the same response: for every `j > i` whose
save succeeds, that save's file write still appears in the trace. -/
theorem handle_item_failure_isolated (env : SaveEnv) (resp : HttpResponse)
    (p f : String) (fs : List (String × JsonVal)) (items : List JsonVal)
    (i : Nat)
    (h200 : resp.status_code = 200)
    (hbody : resp.jsonBody = some (JsonVal.obj fs))
    (hdata : fs.lookup "data" = some (JsonVal.arr items))
    (hobj : ∀ it ∈ items, isObjVal it = true)
    (hi : i < items.length)
    (hib : hasB64Field (items.getD i JsonVal.null) = true)
    (hfail : (save_image_from_b64 env (getB64 (items.getD i JsonVal.null)) p i f).2 = none) :
    (∃ m, startsWith "Error saving image" m = true ∧
      Event.print m ∈ handle_api_response env resp p f) ∧
    (∀ j fn, i < j → j < items.length →
      (save_image_from_b64 env (getB64 (items.getD j JsonVal.null)) p j f).2 = some fn →
      ∃ bs, Event.write fn bs ∈ handle_api_response env resp p f) := by
  obtain ⟨tail, heq, -⟩ := handle_200_obj env resp p f fs items h200 hbody hdata
  have hinto : ∀ e ∈ (processItems env p f 0 items).1,
      e ∈ handle_api_response env resp p f := by
    intro e hmem
    rw [heq]
    exact List.mem_append_left _ hmem
  constructor
  · obtain ⟨m, hm1, hm2⟩ :=
      save_fail_events env (getB64 (items.getD i JsonVal.null)) p i f hfail
    refine ⟨m, hm2, ?_⟩
    have hinf := processItems_save_infix env p f items 0 i hi hobj hib
    rw [Nat.zero_add] at hinf
    apply hinto
    apply hinf.subset
    rw [hm1]
    simp
  · intro j fn hij hjk hsucc
    have hbj : hasB64Field (items.getD j JsonVal.null) = true :=
      hasB64_of_save_succ env p f fn j _ hsucc
    obtain ⟨bs, -, hevs, -⟩ :=
      save_succ_events env (getB64 (items.getD j JsonVal.null)) p j f fn hsucc
    refine ⟨bs, ?_⟩
    have hinf := processItems_save_infix env p f items 0 j hjk hobj hbj
    rw [Nat.zero_add] at hinf
    apply hinto
    apply hinf.subset
    rw [hevs]
    simp

/-- Witness for C5: the first payload is invalid base64, its failure is
reported, and the later item at position 1 decodes and its file write still
happens. -/
theorem handle_item_failure_isolated_witness :
    ((save_image_from_b64 testEnv
        (getB64 ([(JsonVal.obj [("b64_json", JsonVal.str "QQ")]),
          (JsonVal.obj [("b64_json", JsonVal.str "SGk=")])].getD 0 JsonVal.null))
        "gen" 0 "png").2 = none) ∧
    ((∃ m, startsWith "Error saving image" m = true ∧
        Event.print m ∈ handle_api_response testEnv respBadThenGood "gen" "png") ∧
      (∃ bs, Event.write "gen_20251012_131415_2.png" bs ∈
        handle_api_response testEnv respBadThenGood "gen" "png")) :=
  ⟨by decide,
    ⟨(handle_item_failure_isolated testEnv respBadThenGood "gen" "png" _ _ 0
        rfl rfl rfl
        (by intro it hmem; simp at hmem; rcases hmem with rfl | rfl <;> rfl)
        (by decide) (by decide) (by decide)).1,
     (handle_item_failure_isolated testEnv respBadThenGood "gen" "png" _ _ 0
        rfl rfl rfl
        (by intro it hmem; simp at hmem; rcases hmem with rfl | rfl <;> rfl)
        (by decide) (by decide) (by decide)).2 1 "gen_20251012_131415_2.png"
        (by decide) (by decide) (by decide)⟩⟩

/-- C10: on a 200 response mixing dict items with and without the payload
field, an item without it at position `j` yields the warning naming `j`,
and an item whose save succeeds is written under the filename embedding
`j+1`; the embedded indices follow the item's position, not a separate
counter of saved files. -/
theorem handle_mixed_items_indices (env : SaveEnv) (resp : HttpResponse)
    (p f : String) (fs : List (String × JsonVal)) (items : List JsonVal)
    (h200 : resp.status_code = 200)
    (hbody : resp.jsonBody = some (JsonVal.obj fs))
    (hdata : fs.lookup "data" = some (JsonVal.arr items))
    (hobj : ∀ it ∈ items, isObjVal it = true) :
    ∀ j, j < items.length →
      (hasB64Field (items.getD j JsonVal.null) = false →
        Event.print (itemWarning j (items.getD j JsonVal.null)) ∈
          handle_api_response env resp p f) ∧
      (∀ fn, (save_image_from_b64 env (getB64 (items.getD j JsonVal.null)) p j f).2 = some fn →
        fn = p ++ "_" ++ strftimeYmdHms env.now ++ "_" ++ pyNatStr (j + 1) ++ "." ++ f ∧
        ∃ bs, Event.write fn bs ∈ handle_api_response env resp p f) := by
  intro j hj
  obtain ⟨tail, heq, -⟩ := handle_200_obj env resp p f fs items h200 hbody hdata
  have hinto : ∀ e ∈ (processItems env p f 0 items).1,
      e ∈ handle_api_response env resp p f := by
    intro e hmem
    rw [heq]
    exact List.mem_append_left _ hmem
  constructor
  · intro hnob
    have hw := processItems_warning env p f items 0 j hj hobj hnob
    rw [Nat.zero_add] at hw
    exact hinto _ hw
  · intro fn hsucc
    obtain ⟨bs, -, hevs, hfn⟩ :=
      save_succ_events env (getB64 (items.getD j JsonVal.null)) p j f fn hsucc
    refine ⟨hfn, bs, ?_⟩
    have hb : hasB64Field (items.getD j JsonVal.null) = true := by
      cases hx : hasB64Field (items.getD j JsonVal.null) with
      | true => rfl
      | false =>
        exfalso
        have hdec := getB64_decode_none _ hx
        simp only [save_image_from_b64, hdec] at hsucc
        simp at hsucc
    have hinf := processItems_save_infix env p f items 0 j hj hobj hb
    rw [Nat.zero_add] at hinf
    apply hinto
    apply hinf.subset
    rw [hevs]
    simp

/-- Witness for C10: a payload-less item at position 0 triggers the warning
naming 0, and the item at position 1 is saved with filename index 2. -/
theorem handle_mixed_items_indices_witness :
    (Event.print (itemWarning 0 (JsonVal.obj [("note", JsonVal.str "filtered")])) ∈
      handle_api_response testEnv respMixed "gen" "png") ∧
    ("gen_20251012_131415_2.png" =
      "gen" ++ "_" ++ strftimeYmdHms testEnv.now ++ "_" ++ pyNatStr (1 + 1) ++ "." ++ "png" ∧
      ∃ bs, Event.write "gen_20251012_131415_2.png" bs ∈
        handle_api_response testEnv respMixed "gen" "png") :=
  ⟨(handle_mixed_items_indices testEnv respMixed "gen" "png" _ _ rfl rfl rfl
      (by intro it hmem; simp at hmem; rcases hmem with rfl | rfl <;> rfl)
      0 (by decide)).1 (by decide),
   (handle_mixed_items_indices testEnv respMixed "gen" "png" _ _ rfl rfl rfl
      (by intro it hmem; simp at hmem; rcases hmem with rfl | rfl <;> rfl)
      1 (by decide)).2 "gen_20251012_131415_2.png" (by decide)⟩

/-- C1 counterexample: a 200 response whose body is
`{"data": [], "usage": {"total_tokens": 5}}` — an empty `"data"` sequence
together with a non-null `"usage"` — produces no "no images" report at all,
because line 56's check is an `elif` of the usage branch. -/
theorem no_images_suppressed_by_usage :
    printCount noImagesMsg
      (handle_api_response testEnv respEmptyWithUsage "gen" "png") = 0 := by
  decide

/-- C1 (amended): on a 200 response whose parsed body maps `"data"` to an
empty list **and whose `"usage"` key is absent or null**, the handler prints
the "no images were generated" report exactly once, and no print carries the
malformed-shape warning (whose prefix the report does not share).  A non-null
`"usage"` field suppresses the report (see the counterexample). -/
theorem no_images_report (env : SaveEnv) (p f text2 : String)
    (fs : List (String × JsonVal))
    (hdata : fs.lookup "data" = some (JsonVal.arr []))
    (husage : fs.lookup "usage" = none ∨ fs.lookup "usage" = some JsonVal.null) :
    printCount noImagesMsg
      (handle_api_response env ⟨200, some (JsonVal.obj fs), text2⟩ p f) = 1 ∧
    (∀ e ∈ handle_api_response env ⟨200, some (JsonVal.obj fs), text2⟩ p f,
      isPrintWithPrefix "Unexpected response structure" e = false) ∧
    startsWith "Unexpected response structure" noImagesMsg = false := by
  have hany := lookup_imp_any hdata
  have hhandle : handle_api_response env ⟨200, some (JsonVal.obj fs), text2⟩ p f =
      [Event.print noImagesMsg] := by
    rw [handle_api_response, if_pos rfl]
    simp only [handleParsed, pyContains_obj, hany, pySubscript_obj hdata,
      processItems]
    rcases husage with hu | hu
    · have hanyu := lookup_none_imp_any hu
      simp only [afterData, pyContains_obj, hanyu, elifChain, hany,
        pySubscript_obj hdata, pyFalsy]
      simp
    · have hanyu := lookup_imp_any hu
      simp only [afterData, pyContains_obj, hanyu, pySubscript_obj hu, elifChain,
        hany, pySubscript_obj hdata, pyFalsy]
      simp
  rw [hhandle]
  refine ⟨by simp [printCount], ?_, by decide⟩
  intro e he
  simp at he
  subst he
  decide

/-- Witness for the amended C1 on a concrete empty-`"data"` response without
a usage field. -/
theorem no_images_report_witness :
    printCount noImagesMsg
      (handle_api_response testEnv respEmptyNoUsage "gen" "png") = 1 ∧
    (∀ e ∈ handle_api_response testEnv respEmptyNoUsage "gen" "png",
      isPrintWithPrefix "Unexpected response structure" e = false) ∧
    startsWith "Unexpected response structure" noImagesMsg = false :=
  no_images_report testEnv "gen" "png" "" [("data", JsonVal.arr [])] rfl (Or.inl rfl)

/-- C2: on every edit invocation the opened multipart file handles are all
closed, in order, on every exit path; and when any referenced source image
or (truthy) mask path does not exist, no HTTP POST is issued. -/
theorem edit_releases_handles_and_skips_request (env : EditEnv) (args : EditArgs) :
    openedPaths (edit_image env args) = closedPaths (edit_image env args) ∧
    ((∃ q ∈ referencedPaths args, env.pathExists q = false) →
      postCount (edit_image env args) = 0) := by
  obtain ⟨hh1, hh2, hh3⟩ := printsOnly_no_net (editHeader_prints args)
  constructor
  · cases ho : (openLoop env args.image_paths).2.2 with
    | some msg =>
      simp only [edit_image, ho, openedPaths_append, closedPaths_append,
        openLoop_evs, openedPaths_map_openFile, closedPaths_map_openFile,
        openedPaths_map_closeFile, closedPaths_map_closeFile, hh1, hh2]
      simp [openedPaths, closedPaths]
    | none =>
      cases hm : (maskStep env args).2.2 with
      | some msg =>
        simp only [edit_image, ho, hm, openedPaths_append, closedPaths_append,
          openLoop_evs, maskStep_evs, openedPaths_map_openFile,
          closedPaths_map_openFile, openedPaths_map_closeFile,
          closedPaths_map_closeFile, hh1, hh2]
        simp [openedPaths, closedPaths]
      | none =>
        cases ht : env.transport with
        | some resp =>
          obtain ⟨hn1, hn2, -⟩ :=
            handle_no_net env.saveEnv resp args.output_prefix "png"
          simp only [edit_image, ho, hm, ht, openedPaths_append,
            closedPaths_append, openLoop_evs, maskStep_evs,
            openedPaths_map_openFile, closedPaths_map_openFile,
            openedPaths_map_closeFile, closedPaths_map_closeFile, hh1, hh2,
            hn1, hn2, openedPaths_cons_post, closedPaths_cons_post]
          simp [openedPaths, closedPaths]
        | none =>
          simp only [edit_image, ho, hm, ht, openedPaths_append,
            closedPaths_append, openLoop_evs, maskStep_evs,
            openedPaths_map_openFile, closedPaths_map_openFile,
            openedPaths_map_closeFile, closedPaths_map_closeFile, hh1, hh2,
            openedPaths_cons_post, closedPaths_cons_post]
          simp [openedPaths, closedPaths]
  · intro hex
    obtain ⟨q, hq, hmiss⟩ := hex
    cases ho : (openLoop env args.image_paths).2.2 with
    | some msg =>
      simp only [edit_image, ho, postCount_append, hh3, openLoop_evs,
        postCount_map_openFile, postCount_map_closeFile, postCount_cons_print]
      simp [postCount]
    | none =>
      have hall := openLoop_complete env args.image_paths ho
      unfold referencedPaths at hq
      rcases List.mem_append.1 hq with himg | hmask
      · rw [hall q himg] at hmiss
        cases hmiss
      · cases hmp : args.mask_path with
        | none =>
          rw [hmp] at hmask
          cases hmask
        | some mp =>
          simp only [hmp] at hmask
          by_cases hne : mp = ""
          · rw [if_pos hne] at hmask
            cases hmask
          · rw [if_neg hne] at hmask
            simp at hmask
            subst hmask
            have hms : (maskStep env args).2.2 =
                some ("Error: Mask file not found: " ++ q) := by
              simp [maskStep, hmp, hne, hmiss]
            simp only [edit_image, ho, hms, postCount_append, hh3, openLoop_evs,
              maskStep_evs, postCount_map_openFile, postCount_map_closeFile,
              postCount_cons_print]
            simp [postCount]

/-- Witness for C2 on an edit referencing a missing file: handles balance
and no POST happens. -/
theorem edit_releases_handles_witness :
    openedPaths (edit_image editEnvMissing editArgsOne) =
      closedPaths (edit_image editEnvMissing editArgsOne) ∧
    postCount (edit_image editEnvMissing editArgsOne) = 0 :=
  ⟨(edit_releases_handles_and_skips_request editEnvMissing editArgsOne).1,
   (edit_releases_handles_and_skips_request editEnvMissing editArgsOne).2
     ⟨"in.png", by decide, by decide⟩⟩

/-- C9: every file the edit operation writes from the response has the
`.png` extension, because the edit path always requests persistence with
format `"png"`. -/
theorem edit_saves_png_only (env : EditEnv) (args : EditArgs) (fn : String)
    (bs : List Nat) (h : hasWrite fn bs (edit_image env args) = true) :
    ∃ stem, fn = stem ++ ".png" :=
  writeNames_edit env args fn (mem_writeNames (hasWrite_mem h))

/-- Witness for C9 on a concrete edit whose response carries one image. -/
theorem edit_saves_png_only_witness :
    hasWrite "edi_20251012_131415_1.png" [65, 66, 67]
      (edit_image editEnvOk editArgsOne) = true ∧
    ∃ stem, "edi_20251012_131415_1.png" = stem ++ ".png" :=
  ⟨by decide,
   edit_saves_png_only editEnvOk editArgsOne "edi_20251012_131415_1.png"
     [65, 66, 67] (by decide)⟩

end Imagen
